import Mathlib

/-!
Shallow embedding of the resumable download manager (src/latest.py), plus the
earlier revision of the transfer engine (src/working.py) where a claim contrasts
the two.  Machine integers do not overflow here (Python ints are unbounded), so
byte counts are `Nat`.  Files are modelled by their size (`Option Nat`, `none`
meaning the file does not exist); the network is modelled by an environment
script `Nat → Attempt` giving, for each GET attempt, what the server does.
-/

namespace Dhmma

/-- One record of the catalog (`latest.py` `fetch_audio_list`, lines 104-111):
`category`, `filename`, `url`, `downloaded_bytes`, `total_size`, and `status`
(one of the string literals "pending", "complete", "failed"). -/
structure FileRecord where
  category : String
  filename : String
  url : String
  downloaded_bytes : Nat
  total_size : Nat
  status : String
deriving Repr, DecidableEq, Inhabited

/-- Environment script for one GET attempt inside `download_with_retry`
(`latest.py` lines 140-147): either `requests.get` itself raises
(`connectErr = some e`); otherwise the response carries an HTTP `status`,
and `iter_content` yields the byte-chunks `chunks` (their sizes) and then either
ends normally (`streamErr = none`) or raises after those chunks
(`streamErr = some e`). -/
structure Attempt where
  connectErr : Option String
  status : Nat
  chunks : List Nat
  streamErr : Option String
deriving Repr, DecidableEq, Inhabited

/-- Mutable state threaded through a transfer: the destination file's size on
disk (`none` = absent) and the record's `downloaded_bytes` counter, which the
chunk loop increments in place (`latest.py` line 147). -/
structure DlState where
  file : Option Nat
  downloaded : Nat
deriving Repr, DecidableEq, Inhabited

/-- The chunk loop of `download_with_retry` (`latest.py` lines 143-147): each
truthy (non-empty) chunk is appended to the open file and added to
`item['downloaded_bytes']`; empty chunks are skipped by the `if chunk:` guard. -/
def writeChunks (chunks : List Nat) (s : DlState) : DlState :=
  chunks.foldl
    (fun st c =>
      if c ≠ 0 then { file := some (st.file.getD 0 + c), downloaded := st.downloaded + c }
      else st)
    s

/-- One attempt of `download_with_retry` (`latest.py` lines 136-147):
`requests.get` may raise; otherwise `raise_for_status()` raises on a 4xx/5xx
status BEFORE the destination file is opened; otherwise the file is opened
(`'ab'` keeps its bytes, `'wb'` truncates to 0, both create it if absent) and
the chunks are streamed, possibly ending in a mid-stream error. -/
def downloadAttempt (a : Attempt) (modeAb : Bool) (s : DlState) :
    Except String Unit × DlState :=
  match a.connectErr with
  | some e => (Except.error e, s)
  | none =>
    if 400 ≤ a.status then (Except.error ("HTTP error " ++ toString a.status), s)
    else
      let opened : DlState := { file := some (if modeAb then s.file.getD 0 else 0),
                                downloaded := s.downloaded }
      let s' := writeChunks a.chunks opened
      match a.streamErr with
      | some e => (Except.error e, s')
      | none => (Except.ok (), s')

/-- Whether an attempt, as scripted by the environment, ends in an exception
(connection error, 4xx/5xx status, or mid-stream error).  This is independent
of the state the attempt starts from. -/
def attemptFails (a : Attempt) : Bool :=
  a.connectErr.isSome || decide (400 ≤ a.status) || a.streamErr.isSome

/-- The error message a failing attempt raises (matching `downloadAttempt`). -/
def attemptErr (a : Attempt) : String :=
  match a.connectErr with
  | some e => e
  | none =>
    if 400 ≤ a.status then "HTTP error " ++ toString a.status
    else a.streamErr.getD ""

/-- Instrumentation record of one attempt: the value of `downloaded_bytes` when
the attempt started, and the `Range` offset and append-mode the request was
issued with.  In the source these last two are the `headers` / `mode` arguments
that `retry_request`'s `wrapper` passes unchanged to every attempt. -/
structure AttemptRecord where
  startDownloaded : Nat
  rangeStart : Option Nat
  modeAb : Bool
deriving Repr, DecidableEq, Inhabited

/-- Outcome of `retry_request(download_with_retry)`: the final result, the final
transfer state, how many attempts ran, how many inter-attempt delays
(`time.sleep(retry_delay)`) were observed, and the per-attempt trace. -/
structure RetryResult where
  result : Except String Unit
  state : DlState
  attempts : Nat
  delays : Nat
  trace : List AttemptRecord
deriving Repr, Inhabited

/-- The loop body of `retry_request`'s `wrapper` (`latest.py` lines 123-133):
`for attempt in range(max_retries)`, return on success; on an exception sleep
and continue unless this was the last attempt, in which case re-raise the same
exception.  The `rangeStart` / `modeAb` arguments are bound once and passed
unchanged to every attempt, exactly as `wrapper(*args, **kwargs)` reuses its
arguments.  The first argument of the recursion is the index of the next
attempt, the second the number of loop iterations remaining. -/
def retryAux (env : Nat → Attempt) (rangeStart : Option Nat) (modeAb : Bool) :
    Nat → Nat → DlState → RetryResult
  | _, 0, s => { result := Except.ok (), state := s, attempts := 0, delays := 0, trace := [] }
  | i, r + 1, s =>
    let rec0 : AttemptRecord :=
      { startDownloaded := s.downloaded, rangeStart := rangeStart, modeAb := modeAb }
    let step := downloadAttempt (env i) modeAb s
    match step.1 with
    | Except.ok _ =>
      { result := Except.ok (), state := step.2, attempts := 1, delays := 0, trace := [rec0] }
    | Except.error e =>
      if r = 0 then
        { result := Except.error e, state := step.2, attempts := 1, delays := 0, trace := [rec0] }
      else
        let rest := retryAux env rangeStart modeAb (i + 1) r step.2
        { result := rest.result, state := rest.state, attempts := rest.attempts + 1,
          delays := rest.delays + 1, trace := rec0 :: rest.trace }

/-- `retry_request` applied to `download_with_retry` (`latest.py` lines 123-133
and 135-147), started on attempt index 0. -/
def retry_request (maxRetries : Nat) (env : Nat → Attempt) (rangeStart : Option Nat)
    (modeAb : Bool) (s : DlState) : RetryResult :=
  retryAux env rangeStart modeAb 0 maxRetries s

/-- Step 2 of `download_file` (`latest.py` lines 163-171): the effective
existing size is the stored `downloaded_bytes`, bumped up to the on-disk size
when the file exists and is larger. -/
def resolveExisting (stored : Nat) (diskSize : Option Nat) : Nat :=
  match diskSize with
  | some d => if d > stored then d else stored
  | none => stored

/-- Which message `download_file` returns (the f-string texts are elided; only
the branch identity matters to the specification). -/
inductive DFMsg where
  | skip : DFMsg
  | success : DFMsg
  | failure : String → DFMsg
deriving Repr, DecidableEq, Inhabited

/-- Observable outcome of one `download_file` call (`latest.py` lines 150-206):
the returned `(message, modified)` pair, the record after its in-place
mutations, the destination file, the lines appended to the failure journal,
whether `os.makedirs` ran, how many GET attempts and delays happened, the
per-attempt trace, and the `existing_size` the transfer derived (`none` on the
already-complete early return). -/
structure DFResult where
  message : Option DFMsg
  modified : Bool
  item : FileRecord
  file : Option Nat
  journal : List String
  madeDirs : Bool
  attempts : Nat
  delays : Nat
  trace : List AttemptRecord
  startOffset : Option Nat
deriving Repr, Inhabited

/-- `download_file` (`latest.py` lines 150-206).  `os.makedirs` runs first; a
record already marked "complete" returns `(None, False)` untouched; otherwise
the existing size is reconciled against the disk, the skip-if-already-full
check runs, and finally the retried transfer with the `Range` header and file
mode derived once from `existing_size`.  On success the record becomes
"complete" (backfilling an unknown `total_size`); on an exhausted-retry
exception it becomes "failed" and one line is appended to the failure journal. -/
def download_file (item : FileRecord) (diskSize : Option Nat) (env : Nat → Attempt)
    (maxRetries : Nat) : DFResult :=
  if item.status = "complete" then
    { message := none, modified := false, item := item, file := diskSize, journal := [],
      madeDirs := true, attempts := 0, delays := 0, trace := [], startOffset := none }
  else
    let existing := resolveExisting item.downloaded_bytes diskSize
    let item1 := { item with downloaded_bytes := existing }
    if 0 < item.total_size ∧ item.total_size ≤ existing then
      { message := some DFMsg.skip, modified := true,
        item := { item1 with status := "complete", downloaded_bytes := item.total_size },
        file := diskSize, journal := [], madeDirs := true, attempts := 0, delays := 0,
        trace := [], startOffset := some existing }
    else
      let rangeStart := if 0 < existing then some existing else none
      let modeAb := decide (0 < existing)
      let r := retry_request maxRetries env rangeStart modeAb
        { file := diskSize, downloaded := item1.downloaded_bytes }
      match r.result with
      | Except.ok _ =>
        let item2 := { item1 with downloaded_bytes := r.state.downloaded, status := "complete" }
        let item3 :=
          if item2.total_size = 0 then { item2 with total_size := item2.downloaded_bytes }
          else item2
        { message := some DFMsg.success, modified := true, item := item3, file := r.state.file,
          journal := [], madeDirs := true, attempts := r.attempts, delays := r.delays,
          trace := r.trace, startOffset := some existing }
      | Except.error e =>
        { message := some (DFMsg.failure e), modified := true,
          item := { item1 with downloaded_bytes := r.state.downloaded, status := "failed" },
          file := r.state.file,
          journal := [item.url ++ " - Error: " ++ e ++ "\n"],
          madeDirs := true, attempts := r.attempts, delays := r.delays, trace := r.trace,
          startOffset := some existing }

namespace Working

/-- One attempt of the earlier revision's `download_with_retry`
(`working.py` lines 124-131): no `raise_for_status` call — the destination file
is opened and the response body is written whatever the HTTP status is.  The
result is the attempt's outcome together with the destination file's size
(`working.py` tracks no per-record byte counter). -/
def runAttempt (a : Attempt) (modeAb : Bool) (file : Option Nat) :
    Except String Unit × Option Nat :=
  match a.connectErr with
  | some e => (Except.error e, file)
  | none =>
    let f1 : Nat := if modeAb then file.getD 0 else 0
    let f2 := a.chunks.foldl (fun acc c => if c ≠ 0 then acc + c else acc) f1
    match a.streamErr with
    | some e => (Except.error e, some f2)
    | none => (Except.ok (), some f2)

end Working

/-! ### Model of `main` (`latest.py` lines 209-266)

`main` runs three phases over the catalog: the HEAD size-probe pass
(lines 222-242), the parallel download pass (lines 247-261) whose fan-in loop
saves the whole catalog after each modified completion, and a final
unconditional save (line 264).  Each worker owns exactly one record, so the
catalog state visible to a save is determined by which workers have completed;
`as_completed` yields the futures in an arbitrary order, modelled by the
permutation `perm` of the record indices.  All saves are issued from this one
fan-in loop in the main thread, so no two saves run concurrently. -/

/-- Per-record input to a run: the record, its on-disk file, and the network
environment its GET attempts will see. -/
structure RecordInput where
  item : FileRecord
  disk : Option Nat
  env : Nat → Attempt

/-- The HEAD size-probe pass (`latest.py` lines 222-238), walking the catalog
from position `i`: a record that is not complete and has unknown size gets one
HEAD request, whose result (`headEnv` at the record's position) either fills in
`total_size` from `content-length` or, on an exception, marks the record
"failed".  Returns the updated catalog and the number of HEAD requests made. -/
def sizeCheckAux (headEnv : Nat → Except String Nat) :
    Nat → List FileRecord → List FileRecord × Nat
  | _, [] => ([], 0)
  | i, it :: rest =>
    let r := sizeCheckAux headEnv (i + 1) rest
    if it.status ≠ "complete" ∧ it.total_size = 0 then
      ((match headEnv i with
        | Except.ok n => { it with total_size := n }
        | Except.error _ => { it with status := "failed" }) :: r.1, r.2 + 1)
    else (it :: r.1, r.2)

/-- The size-probe pass over the whole catalog. -/
def sizeCheckPhase (cat : List FileRecord) (headEnv : Nat → Except String Nat) :
    List FileRecord × Nat :=
  sizeCheckAux headEnv 0 cat

/-- Fallback value for out-of-range result lookups. -/
def dfltDF : DFResult := default

/-- The download pass (`latest.py` lines 247-250): every record is submitted to
`download_file` with its own disk file and network environment.  Records are
independent (each worker mutates only its own record), so the bag of results
does not depend on scheduling. -/
def downloadPhase (cat : List FileRecord) (inputs : List RecordInput) (maxRetries : Nat) :
    List DFResult :=
  (cat.zip inputs).map fun p => download_file p.1 p.2.disk p.2.env maxRetries

/-- The in-memory catalog once the workers listed in `done` (by index) have
completed, walking the catalog and the per-record results in lockstep (worker
`i` owns exactly record `i`): each completed record has been replaced, in
place, by its worker's mutated copy; the others still hold their pre-download
state. -/
def catAfterAux (done : List Nat) : Nat → List FileRecord → List DFResult → List FileRecord
  | _, [], _ => []
  | _, b :: bs, [] => b :: bs
  | i, b :: bs, r :: rs =>
    (if i ∈ done then r.item else b) :: catAfterAux done (i + 1) bs rs

/-- The catalog snapshot a save observes after the completions in `done`. -/
def catalogAfter (base : List FileRecord) (results : List DFResult) (done : List Nat) :
    List FileRecord :=
  catAfterAux done 0 base results

/-- The fan-in loop of `main` (`latest.py` lines 252-261): completions arrive in
the order given by the remaining permutation; after each completion whose
result was modified, the whole catalog is saved.  Accumulates the set of
completed indices and the list of snapshots saved so far. -/
def fanInLoop (base : List FileRecord) (results : List DFResult) :
    List Nat → List Nat → List (List FileRecord) → List Nat × List (List FileRecord)
  | [], done, saves => (done, saves)
  | idx :: rest, done, saves =>
    let done2 := done ++ [idx]
    let saves2 :=
      if (results.getD idx dfltDF).modified then saves ++ [catalogAfter base results done2]
      else saves
    fanInLoop base results rest done2 saves2

/-- Observable outcome of one `main` run: the final in-memory catalog, the
per-record destination files, the number of HEAD and GET network requests, and
the successive snapshots written to the progress cache. -/
structure MainResult where
  catalog : List FileRecord
  files : List (Option Nat)
  headCount : Nat
  getAttempts : Nat
  saves : List (List FileRecord)

/-- `main` (`latest.py` lines 209-266) on an already-loaded catalog: size-probe
pass (saving the cache once if any HEAD ran, line 239), download pass with the
fan-in loop's per-completion saves in completion order `perm`, and the final
unconditional save (line 264), which runs after every worker has finished. -/
def runMain (inputs : List RecordInput) (headEnv : Nat → Except String Nat)
    (maxRetries : Nat) (perm : List Nat) : MainResult :=
  let cat0 := inputs.map fun x => x.item
  let sc := sizeCheckPhase cat0 headEnv
  let results := downloadPhase sc.1 inputs maxRetries
  let fl := fanInLoop sc.1 results perm [] []
  { catalog := results.map fun r => r.item
    files := results.map fun r => r.file
    headCount := sc.2
    getAttempts := (results.map fun r => r.attempts).sum
    saves := (if 0 < sc.2 then [sc.1] else []) ++ fl.2 ++ [catalogAfter sc.1 results fl.1] }

/-! ### Concrete scenarios used by individual claims -/

/-- A record resumed from offset 40 out of a known 100-byte total. -/
def c1Item : FileRecord := ⟨"cat", "a.mp3", "u1", 40, 100, "pending"⟩

/-- A server that ignores the `Range` header: it answers the ranged GET with a
full-content 200 response carrying the whole 100-byte body. -/
def c1Env : Nat → Attempt := fun _ => ⟨none, 200, [100], none⟩

/-- A record resumed from offset 40 out of a known 100-byte total. -/
def c2Item : FileRecord := ⟨"cat", "b.mp3", "u2", 40, 100, "pending"⟩

/-- First attempt: 206 response delivering 30 bytes, then a mid-stream reset;
second attempt: 206 response delivering 30 bytes to completion. -/
def c2Env : Nat → Attempt := fun i =>
  if i = 0 then ⟨none, 206, [30], some "connection reset"⟩ else ⟨none, 206, [30], none⟩

/-- A fresh record with a known 100-byte total. -/
def c3Item : FileRecord := ⟨"cat", "c.mp3", "u3", 0, 100, "pending"⟩

/-- A server that refuses every connection. -/
def c3Env : Nat → Attempt := fun _ => ⟨some "connection refused", 0, [], none⟩

/-- A fresh record with a known 100-byte total. -/
def c4Item : FileRecord := ⟨"cat", "d.mp3", "u4", 0, 100, "pending"⟩

/-- First attempt: 50 bytes delivered, then a mid-stream reset; second attempt:
a fresh full GET (the record had offset 0, so no `Range` header was sent) that
delivers the whole 100-byte body — a perfectly conforming server. -/
def c4Env : Nat → Attempt := fun i =>
  if i = 0 then ⟨none, 200, [50], some "connection reset"⟩ else ⟨none, 200, [100], none⟩

/-- A record resumed from offset 40 out of a known 100-byte total. -/
def c4wItem : FileRecord := ⟨"cat", "dw.mp3", "u4w", 40, 100, "pending"⟩

/-- A conforming 206 response delivering exactly the missing 60 bytes. -/
def c4wEnv : Nat → Attempt := fun _ => ⟨none, 206, [60], none⟩

/-- A record whose stored count (10) is behind the on-disk size (30). -/
def c5Item : FileRecord := ⟨"cat", "e.mp3", "u5", 10, 100, "pending"⟩

/-- A server that refuses every connection (the offset derivation is what the
claim is about, so the transfer itself may fail). -/
def c5Env : Nat → Attempt := fun _ => ⟨some "no route to host", 0, [], none⟩

/-- A catalog of two already-complete records. -/
def c6In : List RecordInput :=
  [⟨⟨"cat", "f.mp3", "u6", 100, 100, "complete"⟩, some 100, fun _ => ⟨some "unused", 0, [], none⟩⟩,
   ⟨⟨"cat", "g.mp3", "u7", 5, 5, "complete"⟩, some 5, fun _ => ⟨some "unused", 0, [], none⟩⟩]

/-- A size-probe environment (never consulted for an all-complete catalog). -/
def c6Head : Nat → Except String Nat := fun _ => Except.error "unused"

/-- A 503 response carrying a 25-byte error page as its body. -/
def c7Att : Attempt := ⟨none, 503, [25], none⟩

/-- Two fresh records whose downloads both succeed (10 and 20 bytes). -/
def c8In : List RecordInput :=
  [⟨⟨"cat", "h.mp3", "u8", 0, 0, "pending"⟩, none, fun _ => ⟨none, 200, [10], none⟩⟩,
   ⟨⟨"cat", "i.mp3", "u9", 0, 0, "pending"⟩, none, fun _ => ⟨none, 200, [20], none⟩⟩]

/-- HEAD results for the two records of `c8In`. -/
def c8Head : Nat → Except String Nat := fun i => Except.ok (10 * (i + 1))

/-- A record whose on-disk file (150 bytes) exceeds its known total (100). -/
def c9Item : FileRecord := ⟨"cat", "j.mp3", "u10", 10, 100, "pending"⟩

/-- A server that refuses every connection (never consulted on the skip path). -/
def c9Env : Nat → Attempt := fun _ => ⟨some "unused", 0, [], none⟩

/-- A record already marked "complete" (with deliberately inconsistent byte
fields, to show they are not touched). -/
def c10Item : FileRecord := ⟨"cat", "k.mp3", "u11", 7, 9, "complete"⟩

/-- A server that refuses every connection (never consulted for a complete
record). -/
def c10Env : Nat → Attempt := fun _ => ⟨some "unused", 0, [], none⟩

/-! ### Helper lemmas -/

/-- A record already marked "complete" is returned untouched, with no network
attempt, no journal line, and no mutation (only the `makedirs` side effect). -/
theorem download_file_of_complete (item : FileRecord) (disk : Option Nat)
    (env : Nat → Attempt) (mR : Nat) (h : item.status = "complete") :
    download_file item disk env mR =
      { message := none, modified := false, item := item, file := disk, journal := [],
        madeDirs := true, attempts := 0, delays := 0, trace := [], startOffset := none } := by
  unfold download_file
  rw [if_pos h]

/-- The reconciled existing size is the maximum of the stored count and the
on-disk size (0 when the file does not exist). -/
theorem resolveExisting_eq_max (stored : Nat) (disk : Option Nat) :
    resolveExisting stored disk = max stored (disk.getD 0) := by
  rcases disk with _ | d
  · simp [resolveExisting]
  · simp only [resolveExisting, Option.getD_some]
    split <;> omega

/-- An attempt scripted to fail raises exactly `attemptErr` of its script. -/
theorem downloadAttempt_fail (a : Attempt) (m : Bool) (s : DlState)
    (h : attemptFails a = true) :
    (downloadAttempt a m s).1 = Except.error (attemptErr a) := by
  rcases a with ⟨ce, st, ch, se⟩
  rcases ce with _ | e
  · rcases se with _ | e
    · simp only [attemptFails, Option.isSome_none, Bool.false_or, Bool.or_false,
        decide_eq_true_eq] at h
      simp [downloadAttempt, attemptErr, h]
    · by_cases h4 : 400 ≤ st <;>
        simp [downloadAttempt, attemptErr, writeChunks, h4]
  · simp [downloadAttempt, attemptErr]

/-- Writing a chunk list to an open file adds the chunk total to both the file
size and the byte counter (empty chunks are skipped, adding nothing). -/
theorem writeChunks_some (l : List Nat) : ∀ (v d : Nat),
    writeChunks l { file := some v, downloaded := d } =
      { file := some (v + l.sum), downloaded := d + l.sum } := by
  induction l with
  | nil => intro v d; simp [writeChunks]
  | cons c cs ih =>
    intro v d
    by_cases hc : c = 0
    · subst hc
      simp only [writeChunks, List.foldl_cons, if_neg (by simp : ¬ (0 : Nat) ≠ 0)]
      rw [show List.foldl _ _ cs = writeChunks cs { file := some v, downloaded := d } from rfl,
        ih]
      simp
    · simp only [writeChunks, List.foldl_cons, if_pos hc, Option.getD_some]
      rw [show List.foldl _ _ cs =
          writeChunks cs { file := some (v + c), downloaded := d + c } from rfl, ih]
      simp only [List.sum_cons, DlState.mk.injEq, Option.some.injEq]
      omega

/-- An attempt scripted to succeed writes its whole chunk total after taking the
open-mode into account (append keeps the bytes, truncate discards them). -/
theorem downloadAttempt_ok (a : Attempt) (m : Bool) (s : DlState)
    (h1 : a.connectErr = none) (h2 : a.status < 400) (h3 : a.streamErr = none) :
    downloadAttempt a m s =
      (Except.ok (), { file := some ((if m then s.file.getD 0 else 0) + a.chunks.sum),
                       downloaded := s.downloaded + a.chunks.sum }) := by
  rcases a with ⟨ce, st, ch, se⟩
  cases h1
  cases h3
  have h2' : st < 400 := h2
  simp only [downloadAttempt, if_neg (by omega : ¬ 400 ≤ st)]
  rw [writeChunks_some]

/-- The first attempt of a (non-empty) retry loop starts from the incoming
byte count and carries the bound-once header and mode. -/
theorem retryAux_trace_head (env : Nat → Attempt) (rs : Option Nat) (m : Bool)
    (i r : Nat) (s : DlState) :
    ((retryAux env rs m i (r + 1) s).trace).head? =
      some { startDownloaded := s.downloaded, rangeStart := rs, modeAb := m } := by
  simp only [retryAux]
  split
  · rfl
  · split
    · rfl
    · rfl

/-- Every attempt of the retry loop is issued with the same `Range` header and
file mode that the wrapper was originally called with. -/
theorem retryAux_trace_mem (env : Nat → Attempt) (rs : Option Nat) (m : Bool) :
    ∀ (rem i : Nat) (s : DlState) (rec : AttemptRecord),
      rec ∈ (retryAux env rs m i rem s).trace →
      rec.rangeStart = rs ∧ rec.modeAb = m := by
  intro rem
  induction rem with
  | zero => intro i s rec h; simp [retryAux] at h
  | succ r ih =>
    intro i s rec h
    simp only [retryAux] at h
    split at h
    · simp only [List.mem_singleton] at h
      subst h
      exact ⟨rfl, rfl⟩
    · split at h
      · simp only [List.mem_singleton] at h
        subst h
        exact ⟨rfl, rfl⟩
      · simp only [List.mem_cons] at h
        rcases h with h | h
        · subst h
          exact ⟨rfl, rfl⟩
        · exact ih (i + 1) _ rec h

/-- One-step unfolding of the retry loop when the current attempt fails. -/
theorem retryAux_succ_error (env : Nat → Attempt) (rs : Option Nat) (m : Bool)
    (i r : Nat) (s : DlState) (e : String)
    (he : (downloadAttempt (env i) m s).1 = Except.error e) :
    retryAux env rs m i (r + 1) s =
      if r = 0 then
        { result := Except.error e, state := (downloadAttempt (env i) m s).2, attempts := 1,
          delays := 0,
          trace := [{ startDownloaded := s.downloaded, rangeStart := rs, modeAb := m }] }
      else
        { result := (retryAux env rs m (i + 1) r (downloadAttempt (env i) m s).2).result,
          state := (retryAux env rs m (i + 1) r (downloadAttempt (env i) m s).2).state,
          attempts := (retryAux env rs m (i + 1) r (downloadAttempt (env i) m s).2).attempts + 1,
          delays := (retryAux env rs m (i + 1) r (downloadAttempt (env i) m s).2).delays + 1,
          trace := { startDownloaded := s.downloaded, rangeStart := rs, modeAb := m } ::
            (retryAux env rs m (i + 1) r (downloadAttempt (env i) m s).2).trace } := by
  simp only [retryAux, he]

/-- One-step unfolding of the retry loop when the current attempt succeeds. -/
theorem retryAux_succ_ok (env : Nat → Attempt) (rs : Option Nat) (m : Bool)
    (i r : Nat) (s : DlState)
    (he : (downloadAttempt (env i) m s).1 = Except.ok ()) :
    retryAux env rs m i (r + 1) s =
      { result := Except.ok (), state := (downloadAttempt (env i) m s).2, attempts := 1,
        delays := 0,
        trace := [{ startDownloaded := s.downloaded, rangeStart := rs, modeAb := m }] } := by
  simp only [retryAux, he]

/-- When every scripted attempt fails, the retry loop runs exactly `r + 1`
attempts with `r` delays and re-raises the last attempt's error verbatim. -/
theorem retryAux_all_fail (env : Nat → Attempt) (rs : Option Nat) (m : Bool) :
    ∀ (r i : Nat) (s : DlState),
      (∀ j, j < r + 1 → attemptFails (env (i + j)) = true) →
      (retryAux env rs m i (r + 1) s).result = Except.error (attemptErr (env (i + r))) ∧
      (retryAux env rs m i (r + 1) s).attempts = r + 1 ∧
      (retryAux env rs m i (r + 1) s).delays = r := by
  intro r
  induction r with
  | zero =>
    intro i s h
    have h0 : attemptFails (env i) = true := by
      have := h 0 (by omega)
      simpa using this
    have hf := downloadAttempt_fail (env i) m s h0
    rw [retryAux_succ_error env rs m i 0 s _ hf]
    simp
  | succ r ih =>
    intro i s h
    have h0 : attemptFails (env i) = true := by
      have := h 0 (by omega)
      simpa using this
    have hf := downloadAttempt_fail (env i) m s h0
    have hrec := ih (i + 1) ((downloadAttempt (env i) m s).2) (by
      intro j hj
      have := h (j + 1) (by omega)
      have hidx : i + (j + 1) = i + 1 + j := by omega
      rwa [hidx] at this)
    have hidx2 : i + 1 + r = i + (r + 1) := by omega
    rw [hidx2] at hrec
    rw [retryAux_succ_error env rs m i (r + 1) s _ hf]
    simp only [if_neg (Nat.succ_ne_zero r)]
    exact ⟨hrec.1, by rw [hrec.2.1], by rw [hrec.2.2]⟩

/-- The size-probe pass does nothing (and issues no HEAD request) on a catalog
whose records are all complete. -/
theorem sizeCheckAux_complete (headEnv : Nat → Except String Nat) :
    ∀ (cat : List FileRecord) (i : Nat),
      (∀ x ∈ cat, x.status = "complete") →
      sizeCheckAux headEnv i cat = (cat, 0) := by
  intro cat
  induction cat with
  | nil => intro i _h; rfl
  | cons it rest ih =>
    intro i h
    have h1 : it.status = "complete" := h it (List.mem_cons_self it rest)
    have h2 := ih (i + 1) (fun x hx => h x (List.mem_cons_of_mem it hx))
    simp only [sizeCheckAux, h2]
    rw [if_neg (by rintro ⟨hne, _⟩; exact hne h1)]

/-- The size-probe pass never changes the number of records. -/
theorem sizeCheckAux_length (headEnv : Nat → Except String Nat) :
    ∀ (cat : List FileRecord) (i : Nat),
      (sizeCheckAux headEnv i cat).1.length = cat.length := by
  intro cat
  induction cat with
  | nil => intro i; rfl
  | cons it rest ih =>
    intro i
    by_cases hc : it.status ≠ "complete" ∧ it.total_size = 0
    · simp only [sizeCheckAux, if_pos hc, List.length_cons, ih]
    · simp only [sizeCheckAux, if_neg hc, List.length_cons, ih]

/-- The download pass over a catalog that is exactly the records of the inputs
is the per-input `download_file` map. -/
theorem downloadPhase_map (inputs : List RecordInput) (mR : Nat) :
    downloadPhase (inputs.map fun x => x.item) inputs mR =
      inputs.map fun x => download_file x.item x.disk x.env mR := by
  induction inputs with
  | nil => rfl
  | cons a l ih =>
    simp only [downloadPhase, List.map_cons, List.zip_cons_cons] at ih ⊢
    rw [ih]

/-- Index lookups into a result list of unmodified results are unmodified
(including the out-of-range default). -/
theorem getD_modified_false (results : List DFResult)
    (h : ∀ r ∈ results, r.modified = false) :
    ∀ idx, (results.getD idx dfltDF).modified = false := by
  induction results with
  | nil => intro idx; rfl
  | cons r rs ih =>
    intro idx
    cases idx with
    | zero => exact h r (List.mem_cons_self r rs)
    | succ n => exact ih (fun x hx => h x (List.mem_cons_of_mem r hx)) n

/-- The fan-in loop processes completions in order: the completed-set
accumulator ends as the initial set followed by the whole permutation. -/
theorem fanInLoop_fst (base : List FileRecord) (results : List DFResult) :
    ∀ (perm done : List Nat) (saves : List (List FileRecord)),
      (fanInLoop base results perm done saves).1 = done ++ perm := by
  intro perm
  induction perm with
  | nil => intro done saves; simp [fanInLoop]
  | cons idx rest ih =>
    intro done saves
    simp only [fanInLoop]
    by_cases hm : (results.getD idx dfltDF).modified = true
    · rw [if_pos hm, ih]
      simp
    · rw [if_neg hm, ih]
      simp

/-- When no result is modified, the fan-in loop performs no save at all. -/
theorem fanInLoop_saves_of_unmodified (base : List FileRecord) (results : List DFResult)
    (hmod : ∀ idx, (results.getD idx dfltDF).modified = false) :
    ∀ (perm done : List Nat) (saves : List (List FileRecord)),
      (fanInLoop base results perm done saves).2 = saves := by
  intro perm
  induction perm with
  | nil => intro done saves; rfl
  | cons idx rest ih =>
    intro done saves
    simp only [fanInLoop]
    have hm := hmod idx
    rw [if_neg (by rw [hm]; simp)]
    exact ih _ _

/-- Mapping two functions over the same list yields pointwise-related lists. -/
theorem forall₂_map_pair {α β γ : Type _} (l : List α) (f : α → β) (g : α → γ)
    (P : β → γ → Prop) (h : ∀ x ∈ l, P (f x) (g x)) :
    List.Forall₂ P (l.map f) (l.map g) := by
  induction l with
  | nil => simp
  | cons a t ih =>
    simp only [List.map_cons, List.forall₂_cons]
    exact ⟨h a (List.mem_cons_self a t),
      ih (fun x hx => h x (List.mem_cons_of_mem a hx))⟩

/-- Replacing each record by a result that carries the same record is the
identity, whatever the completed set. -/
theorem catAfterAux_self (done : List Nat) :
    ∀ (i : Nat) (base : List FileRecord) (results : List DFResult),
      List.Forall₂ (fun b r => r.item = b) base results →
      catAfterAux done i base results = base := by
  intro i base results h
  induction h generalizing i with
  | nil => rfl
  | cons hbr htail ih =>
    simp only [catAfterAux]
    rw [ih (i + 1)]
    congr 1
    split
    · exact hbr
    · rfl

/-- Once every index of the catalog is in the completed set, the snapshot is
exactly the per-worker mutated records. -/
theorem catAfterAux_all_done (done : List Nat) :
    ∀ (base : List FileRecord) (results : List DFResult) (i : Nat),
      base.length = results.length →
      (∀ j, i ≤ j → j < i + base.length → j ∈ done) →
      catAfterAux done i base results = results.map fun r => r.item := by
  intro base
  induction base with
  | nil =>
    intro results i hlen _h
    cases results with
    | nil => rfl
    | cons r rs => simp at hlen
  | cons b bs ih =>
    intro results i hlen hdone
    cases results with
    | nil => simp at hlen
    | cons r rs =>
      simp only [catAfterAux, List.map_cons]
      rw [if_pos (hdone i (Nat.le_refl i) (by simp only [List.length_cons]; omega))]
      rw [ih rs (i + 1) (by simpa using hlen)
        (fun j hj1 hj2 => hdone j (by omega)
          (by simp only [List.length_cons] at hj2 ⊢; omega))]

/-! ### Claim theorems -/

/-- C10: for a record whose status is already "complete", `download_file`
returns `(None, False)` and leaves every field of the record unchanged, makes
no network attempt, writes nothing to the file or the journal — and yet the
`os.makedirs` call for the record's category directory still runs, because it
precedes the status check. -/
theorem c10_complete_early_return (item : FileRecord) (disk : Option Nat)
    (env : Nat → Attempt) (mR : Nat) (h : item.status = "complete") :
    (download_file item disk env mR).message = none ∧
    (download_file item disk env mR).modified = false ∧
    (download_file item disk env mR).item = item ∧
    (download_file item disk env mR).file = disk ∧
    (download_file item disk env mR).journal = [] ∧
    (download_file item disk env mR).attempts = 0 ∧
    (download_file item disk env mR).madeDirs = true := by
  rw [download_file_of_complete item disk env mR h]
  exact ⟨rfl, rfl, rfl, rfl, rfl, rfl, rfl⟩

/-- C10 witness: the early return on a concrete already-complete record. -/
theorem c10_complete_early_return_w :
    (download_file c10Item (some 3) c10Env 3).message = none ∧
    (download_file c10Item (some 3) c10Env 3).modified = false ∧
    (download_file c10Item (some 3) c10Env 3).item = c10Item ∧
    (download_file c10Item (some 3) c10Env 3).file = some 3 ∧
    (download_file c10Item (some 3) c10Env 3).journal = [] ∧
    (download_file c10Item (some 3) c10Env 3).attempts = 0 ∧
    (download_file c10Item (some 3) c10Env 3).madeDirs = true :=
  c10_complete_early_return c10Item (some 3) c10Env 3 rfl

/-- C9: for a non-complete record with known positive `total_size` whose
reconciled size is at least `total_size`, `download_file` short-circuits to
"complete" with no network attempt, setting `downloaded_bytes` to exactly
`total_size` (clamping an on-disk excess downward), so `downloaded_bytes`
cannot exceed `total_size` on this path. -/
theorem c9_short_circuit (item : FileRecord) (disk : Option Nat)
    (env : Nat → Attempt) (mR : Nat) (h1 : item.status ≠ "complete")
    (h2 : 0 < item.total_size)
    (h3 : item.total_size ≤ resolveExisting item.downloaded_bytes disk) :
    (download_file item disk env mR).attempts = 0 ∧
    (download_file item disk env mR).message = some DFMsg.skip ∧
    (download_file item disk env mR).item.status = "complete" ∧
    (download_file item disk env mR).item.downloaded_bytes = item.total_size ∧
    (download_file item disk env mR).item.total_size = item.total_size ∧
    (download_file item disk env mR).item.downloaded_bytes ≤
      (download_file item disk env mR).item.total_size ∧
    (download_file item disk env mR).file = disk := by
  simp only [download_file]
  rw [if_neg h1, if_pos ⟨h2, h3⟩]
  exact ⟨rfl, rfl, rfl, rfl, rfl, Nat.le_refl _, rfl⟩

/-- C9 witness: stored 10, on-disk 150, total 100 — completes with
`downloaded_bytes` clamped to 100 and no network call. -/
theorem c9_short_circuit_w :
    (download_file c9Item (some 150) c9Env 3).attempts = 0 ∧
    (download_file c9Item (some 150) c9Env 3).message = some DFMsg.skip ∧
    (download_file c9Item (some 150) c9Env 3).item.status = "complete" ∧
    (download_file c9Item (some 150) c9Env 3).item.downloaded_bytes = c9Item.total_size ∧
    (download_file c9Item (some 150) c9Env 3).item.total_size = c9Item.total_size ∧
    (download_file c9Item (some 150) c9Env 3).item.downloaded_bytes ≤
      (download_file c9Item (some 150) c9Env 3).item.total_size ∧
    (download_file c9Item (some 150) c9Env 3).file = some 150 :=
  c9_short_circuit c9Item (some 150) c9Env 3 (by decide) (by decide) (by decide)

/-- C5: for a non-complete record that proceeds to a transfer, the starting
offset is the maximum of the stored `downloaded_bytes` and the on-disk size
(0 when the file does not exist); the first attempt starts from exactly that
reconciled byte count, with the `Range` header and open mode derived from it. -/
theorem c5_resume_offset (item : FileRecord) (disk : Option Nat)
    (env : Nat → Attempt) (mR : Nat) (h1 : item.status ≠ "complete")
    (h2 : ¬(0 < item.total_size ∧
        item.total_size ≤ resolveExisting item.downloaded_bytes disk))
    (h3 : 1 ≤ mR) :
    (download_file item disk env mR).startOffset =
      some (max item.downloaded_bytes (disk.getD 0)) ∧
    (download_file item disk env mR).trace.head? =
      some { startDownloaded := max item.downloaded_bytes (disk.getD 0),
             rangeStart :=
               if 0 < max item.downloaded_bytes (disk.getD 0) then
                 some (max item.downloaded_bytes (disk.getD 0))
               else none,
             modeAb := decide (0 < max item.downloaded_bytes (disk.getD 0)) } := by
  obtain ⟨k, rfl⟩ : ∃ k, mR = k + 1 := ⟨mR - 1, by omega⟩
  have hmax := resolveExisting_eq_max item.downloaded_bytes disk
  rw [← hmax]
  simp only [download_file]
  rw [if_neg h1, if_neg h2]
  constructor
  · split <;> rfl
  · split <;>
      (simp only [retry_request]; rw [retryAux_trace_head])

/-- C5 witness: stored 10, on-disk 30 — the transfer starts at offset 30 with a
`Range: bytes=30-` header and append mode. -/
theorem c5_resume_offset_w :
    (download_file c5Item (some 30) c5Env 3).startOffset =
      some (max c5Item.downloaded_bytes ((some 30).getD 0)) ∧
    (download_file c5Item (some 30) c5Env 3).trace.head? =
      some { startDownloaded := max c5Item.downloaded_bytes ((some 30).getD 0),
             rangeStart :=
               if 0 < max c5Item.downloaded_bytes ((some 30).getD 0) then
                 some (max c5Item.downloaded_bytes ((some 30).getD 0))
               else none,
             modeAb := decide (0 < max c5Item.downloaded_bytes ((some 30).getD 0)) } :=
  c5_resume_offset c5Item (some 30) c5Env 3 (by decide) (by decide) (by decide)

/-- C1: evaluation of the code at the failing input of the claim.  The record
was resumed at offset `k = 40` with known total `T = 100`, and the server
answers the ranged GET with a full-content 200 response carrying the whole
100-byte body.  `download_with_retry` never inspects whether the status was
206 or 200 (it checks only `raise_for_status`), opens the file in append mode,
and appends the full body after the 40 existing bytes: the final file has size
`T + k = 140`, not `T = 100`, and the record is marked "complete".  The claim
(and the spec) requires restarting from offset 0 for a size of exactly `T`. -/
theorem c1_range_ignored_appends :
    (download_file c1Item (some 40) c1Env 3).file = some 140 ∧
    (download_file c1Item (some 40) c1Env 3).item.status = "complete" ∧
    (download_file c1Item (some 40) c1Env 3).item.total_size = 100 ∧
    (download_file c1Item (some 40) c1Env 3).item.downloaded_bytes = 140 ∧
    (download_file c1Item (some 40) c1Env 3).file ≠ some 100 := by
  refine ⟨rfl, rfl, rfl, rfl, by decide⟩

/-- C7 counterexample: the earlier revision's engine (`working.py`, cited by
the claim) performs no status check at all: on a 503 response carrying a
25-byte error page it reports success and writes the 25 bytes to the
destination file — a silent partial write.  The same input against the latest
engine fails hard with the file untouched. -/
theorem c7_counterexample :
    Working.runAttempt c7Att false none = (Except.ok (), some 25) ∧
    downloadAttempt c7Att false { file := none, downloaded := 0 } =
      (Except.error ("HTTP error " ++ toString 503), { file := none, downloaded := 0 }) ∧
    400 ≤ c7Att.status :=
  ⟨rfl, rfl, by decide⟩

/-- C7 (amended): in `latest.py`'s engine, any attempt whose GET yields a
response with a 4xx/5xx status fails as a hard error raised by
`raise_for_status()` before the destination file is even opened: the file and
the byte counter are exactly as before the attempt.  (The earlier revision
`working.py` does not check the status and silently writes the body; see the
counterexample.) -/
theorem c7_status_hard_failure (a : Attempt) (m : Bool) (s : DlState)
    (h1 : a.connectErr = none) (h2 : 400 ≤ a.status) :
    downloadAttempt a m s = (Except.error ("HTTP error " ++ toString a.status), s) := by
  rcases a with ⟨ce, st, ch, se⟩
  cases h1
  have h2' : 400 ≤ st := h2
  simp only [downloadAttempt, if_pos h2']

/-- C7 witness: a 503 response against the latest engine, starting from a
7-byte partial file: the attempt errors and the file stays at 7 bytes. -/
theorem c7_status_hard_failure_w :
    downloadAttempt c7Att true { file := some 7, downloaded := 7 } =
      (Except.error ("HTTP error " ++ toString c7Att.status),
        { file := some 7, downloaded := 7 }) :=
  c7_status_hard_failure c7Att true { file := some 7, downloaded := 7 } rfl (by decide)

/-- C3: for a record that proceeds to a transfer and whose attempts all fail,
the retry controller performs exactly `maxRetries` attempts with exactly
`maxRetries - 1` inter-attempt delays, propagates the last attempt's error
verbatim to the caller, the record's status becomes "failed", and exactly one
line is appended to the failure journal. -/
theorem c3_retry_exhaustion (item : FileRecord) (disk : Option Nat)
    (env : Nat → Attempt) (mR : Nat) (h1 : item.status ≠ "complete")
    (h2 : ¬(0 < item.total_size ∧
        item.total_size ≤ resolveExisting item.downloaded_bytes disk))
    (h3 : 1 ≤ mR)
    (h4 : ∀ i, i < mR → attemptFails (env i) = true) :
    (download_file item disk env mR).attempts = mR ∧
    (download_file item disk env mR).delays = mR - 1 ∧
    (download_file item disk env mR).message =
      some (DFMsg.failure (attemptErr (env (mR - 1)))) ∧
    (download_file item disk env mR).item.status = "failed" ∧
    (download_file item disk env mR).journal =
      [item.url ++ " - Error: " ++ attemptErr (env (mR - 1)) ++ "\n"] := by
  obtain ⟨k, rfl⟩ : ∃ k, mR = k + 1 := ⟨mR - 1, by omega⟩
  have hall := retryAux_all_fail env
    (if 0 < resolveExisting item.downloaded_bytes disk then
      some (resolveExisting item.downloaded_bytes disk) else none)
    (decide (0 < resolveExisting item.downloaded_bytes disk)) k 0
    { file := disk, downloaded := resolveExisting item.downloaded_bytes disk }
    (fun j hj => by rw [Nat.zero_add]; exact h4 j (by omega))
  simp only [Nat.zero_add] at hall
  simp only [download_file]
  rw [if_neg h1, if_neg h2]
  simp only [retry_request, Nat.add_sub_cancel]
  split
  · rename_i val heq
    rw [hall.1] at heq
    exact absurd heq (by simp)
  · rename_i e heq
    rw [hall.1] at heq
    injection heq with heq'
    subst heq'
    exact ⟨hall.2.1, hall.2.2, rfl, rfl, rfl⟩

/-- C3 witness: a server refusing every connection, `max_retries = 3`: three
attempts, two delays, the final "connection refused" propagated verbatim,
status "failed", one journal line. -/
theorem c3_retry_exhaustion_w :
    (download_file c3Item none c3Env 3).attempts = 3 ∧
    (download_file c3Item none c3Env 3).delays = 2 ∧
    (download_file c3Item none c3Env 3).message =
      some (DFMsg.failure "connection refused") ∧
    (download_file c3Item none c3Env 3).item.status = "failed" ∧
    (download_file c3Item none c3Env 3).journal =
      ["u3 - Error: connection refused\n"] := by
  have h := c3_retry_exhaustion c3Item none c3Env 3 (by decide) (by decide) (by decide)
    (fun i _ => rfl)
  refine ⟨h.1, h.2.1, h.2.2.1, h.2.2.2.1, ?_⟩
  have hj := h.2.2.2.2
  rwa [show c3Item.url ++ " - Error: " ++ attemptErr (c3Env (3 - 1)) ++ "\n" =
      "u3 - Error: connection refused\n" by decide] at hj

/-- C2 counterexample: with a record resumed at offset 40, the first attempt
appends 30 bytes (advancing `downloaded_bytes` to 70) and then fails; the
second attempt is issued with the SAME `Range: bytes=40-` header, not one
re-derived from the current count 70.  So the claim that every retry re-derives
the offset (and hence the Range header and mode) from the current
`downloaded_bytes` at the top of that attempt is false. -/
theorem c2_counterexample :
    ¬ (∀ rec ∈ (download_file c2Item (some 40) c2Env 3).trace,
        rec.rangeStart =
          (if 0 < rec.startDownloaded then some rec.startDownloaded else none)) := by
  decide

/-- C2 (amended): every retry attempt is issued with the `Range` header and
file-open mode computed once, before the first attempt, from the reconciled
pre-transfer size — the retry wrapper passes the same bound arguments to every
attempt, so a stale offset is reused even after a partial attempt advanced
`downloaded_bytes`. -/
theorem c2_stale_offset (item : FileRecord) (disk : Option Nat)
    (env : Nat → Attempt) (mR : Nat) (rec : AttemptRecord)
    (h : rec ∈ (download_file item disk env mR).trace) :
    rec.rangeStart =
      (if 0 < resolveExisting item.downloaded_bytes disk then
        some (resolveExisting item.downloaded_bytes disk) else none) ∧
    rec.modeAb = decide (0 < resolveExisting item.downloaded_bytes disk) := by
  by_cases h1 : item.status = "complete"
  · rw [download_file_of_complete item disk env mR h1] at h
    simp at h
  · by_cases h2 : 0 < item.total_size ∧
        item.total_size ≤ resolveExisting item.downloaded_bytes disk
    · simp only [download_file] at h
      rw [if_neg h1, if_pos h2] at h
      simp at h
    · simp only [download_file] at h
      rw [if_neg h1, if_neg h2] at h
      simp only [retry_request] at h
      split at h <;> exact retryAux_trace_mem env _ _ _ _ _ rec h

/-- C2 witness: in the concrete two-attempt scenario, the second attempt's
record (started at byte 70) still carries the original `bytes=40-` header and
append mode. -/
theorem c2_stale_offset_w :
    (⟨70, some 40, true⟩ : AttemptRecord).rangeStart =
      (if 0 < resolveExisting c2Item.downloaded_bytes (some 40) then
        some (resolveExisting c2Item.downloaded_bytes (some 40)) else none) ∧
    (⟨70, some 40, true⟩ : AttemptRecord).modeAb =
      decide (0 < resolveExisting c2Item.downloaded_bytes (some 40)) :=
  c2_stale_offset c2Item (some 40) c2Env 3 ⟨70, some 40, true⟩ (by decide)

/-- C4 counterexample: a perfectly conforming server, a fresh record with known
total 100.  The first attempt delivers 50 bytes and dies; the retry re-opens
the file in the same truncate mode and downloads all 100 bytes, so the disk
file is correct — but `downloaded_bytes` accumulated across both attempts is
150, and the record is marked "complete" with `downloaded_bytes = 150 ≠ 100 =
total_size`.  So `status = Complete ⇒ downloaded_bytes = total_size` fails. -/
theorem c4_counterexample :
    (download_file c4Item none c4Env 3).item.status = "complete" ∧
    (download_file c4Item none c4Env 3).item.downloaded_bytes = 150 ∧
    (download_file c4Item none c4Env 3).item.total_size = 100 ∧
    (download_file c4Item none c4Env 3).item.downloaded_bytes ≠
      (download_file c4Item none c4Env 3).item.total_size := by
  refine ⟨rfl, rfl, rfl, by decide⟩

/-- C4 (amended): for a non-complete record, `downloaded_bytes = total_size`
holds on completion in these cases: (i) completion via the already-downloaded
short-circuit path; (ii) `total_size` was unknown (0), in which case it is
backfilled with the final downloaded count; (iii) the transfer succeeded on
the first attempt with the server delivering exactly the missing
`total_size - offset` bytes.  Outside these cases (a failed partial attempt
followed by a successful retry, or a non-conforming body length) a "complete"
record can end with `downloaded_bytes ≠ total_size`, as the counterexample
shows. -/
theorem c4_complete_size_inv (item : FileRecord) (disk : Option Nat)
    (env : Nat → Attempt) (mR : Nat) (h1 : item.status ≠ "complete") :
    ((0 < item.total_size ∧
        item.total_size ≤ resolveExisting item.downloaded_bytes disk) →
      (download_file item disk env mR).item.downloaded_bytes =
        (download_file item disk env mR).item.total_size) ∧
    (item.total_size = 0 → (download_file item disk env mR).item.status = "complete" →
      (download_file item disk env mR).item.downloaded_bytes =
        (download_file item disk env mR).item.total_size) ∧
    (0 < item.total_size →
      resolveExisting item.downloaded_bytes disk < item.total_size →
      (env 0).connectErr = none → (env 0).status < 400 → (env 0).streamErr = none →
      (env 0).chunks.sum =
        item.total_size - resolveExisting item.downloaded_bytes disk →
      1 ≤ mR →
      (download_file item disk env mR).item.status = "complete" ∧
      (download_file item disk env mR).item.downloaded_bytes =
        (download_file item disk env mR).item.total_size) := by
  refine ⟨?_, ?_, ?_⟩
  · intro hA
    simp only [download_file]
    rw [if_neg h1, if_pos hA]
  · intro h0 hc
    have hskip : ¬(0 < item.total_size ∧
        item.total_size ≤ resolveExisting item.downloaded_bytes disk) := by
      rintro ⟨hp, _⟩
      rw [h0] at hp
      exact Nat.lt_irrefl 0 hp
    simp only [download_file] at hc ⊢
    rw [if_neg h1, if_neg hskip] at hc ⊢
    split
    · simp [h0]
    · rename_i e heq
      rw [heq] at hc
      simp at hc
  · intro hT hlt hce hst hse hsum hmr
    obtain ⟨k, rfl⟩ : ∃ k, mR = k + 1 := ⟨mR - 1, by omega⟩
    have hskip : ¬(0 < item.total_size ∧
        item.total_size ≤ resolveExisting item.downloaded_bytes disk) := by
      rintro ⟨_, hle⟩
      omega
    have hok := downloadAttempt_ok (env 0)
      (decide (0 < resolveExisting item.downloaded_bytes disk))
      { file := disk, downloaded := resolveExisting item.downloaded_bytes disk }
      hce hst hse
    have hone := retryAux_succ_ok env
      (if 0 < resolveExisting item.downloaded_bytes disk then
        some (resolveExisting item.downloaded_bytes disk) else none)
      (decide (0 < resolveExisting item.downloaded_bytes disk)) 0 k
      { file := disk, downloaded := resolveExisting item.downloaded_bytes disk }
      (by rw [hok])
    simp only [download_file]
    rw [if_neg h1, if_neg hskip]
    simp only [retry_request]
    rw [hone]
    simp only [hok]
    rw [if_neg (by omega : ¬ item.total_size = 0)]
    refine ⟨rfl, ?_⟩
    simp only []
    omega

/-- C4 witness for case (iii): offset 40, total 100, a conforming single 206
attempt delivering the missing 60 bytes — the record completes with
`downloaded_bytes = total_size`. -/
theorem c4_complete_size_inv_w :
    (download_file c4wItem (some 40) c4wEnv 3).item.status = "complete" ∧
    (download_file c4wItem (some 40) c4wEnv 3).item.downloaded_bytes =
      (download_file c4wItem (some 40) c4wEnv 3).item.total_size :=
  (c4_complete_size_inv c4wItem (some 40) c4wEnv 3 (by decide)).2.2
    (by decide) (by decide) rfl (by decide) rfl (by decide) (by decide)

/-- C6: running the manager over a catalog in which every record is already
"complete" performs zero network requests — no size-probe HEAD and no GET —
and leaves every record and every destination file unchanged; the only cache
write is the final save of the unchanged catalog.  Since a successful run
leaves every record "complete", a second run after it is a no-op in this
sense, whatever completion order the pool produces. -/
theorem c6_idempotent_run (inputs : List RecordInput) (headEnv : Nat → Except String Nat)
    (mR : Nat) (perm : List Nat)
    (h : ∀ x ∈ inputs, x.item.status = "complete") :
    (runMain inputs headEnv mR perm).headCount = 0 ∧
    (runMain inputs headEnv mR perm).getAttempts = 0 ∧
    (runMain inputs headEnv mR perm).catalog = inputs.map (fun x => x.item) ∧
    (runMain inputs headEnv mR perm).files = inputs.map (fun x => x.disk) ∧
    (runMain inputs headEnv mR perm).saves = [inputs.map (fun x => x.item)] := by
  have hsc : sizeCheckPhase (inputs.map fun x => x.item) headEnv =
      (inputs.map fun x => x.item, 0) :=
    sizeCheckAux_complete headEnv _ 0 (by
      intro x hx
      obtain ⟨y, hy, rfl⟩ := List.mem_map.mp hx
      exact h y hy)
  have hresc : downloadPhase (inputs.map fun x => x.item) inputs mR =
      inputs.map (fun x =>
        ({ message := none, modified := false, item := x.item, file := x.disk,
           journal := [], madeDirs := true, attempts := 0, delays := 0, trace := [],
           startOffset := none } : DFResult)) := by
    rw [downloadPhase_map inputs mR]
    exact List.map_congr_left
      (fun x hx => download_file_of_complete x.item x.disk x.env mR (h x hx))
  have hmod : ∀ idx,
      ((inputs.map (fun x =>
        ({ message := none, modified := false, item := x.item, file := x.disk,
           journal := [], madeDirs := true, attempts := 0, delays := 0, trace := [],
           startOffset := none } : DFResult))).getD idx dfltDF).modified = false :=
    getD_modified_false _ (by
      intro r hr
      obtain ⟨y, _, rfl⟩ := List.mem_map.mp hr
      rfl)
  simp only [runMain, hsc, hresc]
  refine ⟨?_, ?_, ?_, ?_, ?_⟩
  · trivial
  · simp only [List.map_map]
    exact List.sum_eq_zero (by
      intro x hx
      obtain ⟨y, _, rfl⟩ := List.mem_map.mp hx
      rfl)
  · simp [List.map_map]
  · simp [List.map_map]
  · rw [fanInLoop_saves_of_unmodified _ _ hmod, fanInLoop_fst]
    rw [show catalogAfter (inputs.map fun x => x.item) _ ([] ++ perm) =
        inputs.map (fun x => x.item) from
      catAfterAux_self _ 0 _ _ (forall₂_map_pair inputs _ _ _ (fun x _ => rfl))]
    simp

/-- C6 witness: a concrete two-record all-complete catalog, with completion
order [1, 0]: no HEAD, no GET, records and files unchanged, one save of the
unchanged catalog. -/
theorem c6_idempotent_run_w :
    (runMain c6In c6Head 3 [1, 0]).headCount = 0 ∧
    (runMain c6In c6Head 3 [1, 0]).getAttempts = 0 ∧
    (runMain c6In c6Head 3 [1, 0]).catalog = c6In.map (fun x => x.item) ∧
    (runMain c6In c6Head 3 [1, 0]).files = c6In.map (fun x => x.disk) ∧
    (runMain c6In c6Head 3 [1, 0]).saves = [c6In.map (fun x => x.item)] :=
  c6_idempotent_run c6In c6Head 3 [1, 0] (by decide)

/-- C8: for every completion order of the pool's workers (every permutation of
the record indices), the catalog snapshot written by the last save is the
catalog with every worker's mutation applied — no completed record's state is
lost to a stale overwrite.  All saves are issued sequentially from the single
fan-in loop of `main` (the model's save sequence), so save calls are mutually
exclusive by construction. -/
theorem c8_final_save_reflects_all (inputs : List RecordInput)
    (headEnv : Nat → Except String Nat) (mR : Nat) (perm : List Nat)
    (hperm : perm.Perm (List.range inputs.length)) :
    (runMain inputs headEnv mR perm).saves.getLast? =
      some ((runMain inputs headEnv mR perm).catalog) := by
  have hblen : (sizeCheckPhase (inputs.map fun x => x.item) headEnv).1.length =
      inputs.length := by
    simp only [sizeCheckPhase]
    rw [sizeCheckAux_length headEnv _ 0, List.length_map]
  have hrlen :
      (downloadPhase (sizeCheckPhase (inputs.map fun x => x.item) headEnv).1 inputs mR).length =
      (sizeCheckPhase (inputs.map fun x => x.item) headEnv).1.length := by
    simp only [downloadPhase, List.length_map]
    rw [List.length_zip _ _, hblen]
    exact Nat.min_self _
  have hfinal : catalogAfter (sizeCheckPhase (inputs.map fun x => x.item) headEnv).1
      (downloadPhase (sizeCheckPhase (inputs.map fun x => x.item) headEnv).1 inputs mR)
      ([] ++ perm) =
      (downloadPhase (sizeCheckPhase (inputs.map fun x => x.item) headEnv).1 inputs mR).map
        (fun r => r.item) := by
    apply catAfterAux_all_done
    · rw [hrlen]
    · intro j _hj0 hjlt
      exact hperm.mem_iff.mpr (List.mem_range.mpr (by omega))
  simp only [runMain]
  rw [fanInLoop_fst, hfinal, List.getLast?_concat]

/-- C8 witness: two records completing in the order [1, 0]; the last saved
snapshot equals the final catalog with both mutations applied. -/
theorem c8_final_save_reflects_all_w :
    (runMain c8In c8Head 3 [1, 0]).saves.getLast? =
      some ((runMain c8In c8Head 3 [1, 0]).catalog) :=
  c8_final_save_reflects_all c8In c8Head 3 [1, 0] (by decide)

end Dhmma
